import Mathlib

/-!
Shallow embedding of src/effects/RunWhile.ts (redux-saga-observer).

The source file builds an immutable RunWhileDefinition through a fluent
builder (runWhile / saga / invariant / onViolation) and then runs a
supervisor generator runInternal that races the saga (keyed by the reserved
sentinel string "@@Saga") against one observeWhile watcher per invariant.
When the race is won by an invariant-keyed branch, the supervisor selects
one state snapshot, recomputes the violated tags in registration order and
calls every registered violation handler, sequentially, with that snapshot
and that tag list.

Embedding choices, each traceable to the source:

* S is the redux state type, C the type of violation callbacks (opaque
  generator functions in the source) and T the type of the saga itself
  (also an opaque generator function).
* The builder functions copy-then-extend the definition record exactly as
  the source spreads it; they are pure Lean functions because the source
  never mutates an existing definition or one of its arrays (every step is
  a spread copy), so a stage is a value and earlier stages cannot change.
* The operation named invariant returns Except TagError: the source throws
  one of two Error values (reserved tag / duplicate tag) whose messages,
  reproduced verbatim in TagError.message, never coincide, so the two
  error kinds form a sum type.
* The race and the select effect are external collaborators.  Their
  outcomes are inputs of runInternal: winners is the list of keys present
  in raceResults, and s is the state that the select effect returns.  The
  observable behaviour of runInternal is its trace of effects after the
  race: a readState event for the select, and one invoke event per
  blocking handler call.  Each handler is run by a blocking call effect,
  so the order of invoke events in the trace is both the start order and
  the completion order of the handlers: handler k+1 starts only after
  handler k completed.
-/

namespace RunWhileSpec

/-- Invariant record from the source: a tag and a predicate over state. -/
structure Invariant (S : Type) where
  tag : String
  clause : S → Bool

/-- RunWhileDefinition record from the source: the saga, the invariant list
and the violation callback list, both in registration order. -/
structure RunWhileDefinition (S C T : Type) where
  saga : T
  invariants : List (Invariant S)
  onViolationCallbacks : List C

/-- The reserved race key of the source, const sagaRaceTag. -/
def sagaRaceTag : String := "@@Saga"

/-- The two construction-time errors thrown by the invariant operation. -/
inductive TagError where
  | reserved (tag : String)
  | duplicate (tag : String)
deriving DecidableEq

/-- The Error messages of the source, verbatim: the reserved-tag message is
the tag followed by " is reserved. Please choose another invariant tag.",
the duplicate-tag message is the tag followed by " is a". -/
def TagError.message : TagError → String
  | .reserved t => t ++ " is reserved. Please choose another invariant tag."
  | .duplicate t => t ++ " is a"

/-- Source runWhile: the initial definition, carrying the placeholder saga
(a generator that yields 0 once, abstracted here as a value of T) and empty
invariant and callback lists. -/
def runWhile {S C T : Type} (nothing : T) : RunWhileDefinition S C T :=
  { saga := nothing, invariants := [], onViolationCallbacks := [] }

/-- The saga builder step: a spread copy of the receiver with the saga
replaced. -/
def saga {S C T : Type} (d : RunWhileDefinition S C T) (sg : T) :
    RunWhileDefinition S C T :=
  { d with saga := sg }

/-- The invariant builder step.  Faithful to the order of checks in the
source: first the reserved-tag check against sagaRaceTag, then the
duplicate check (a some-scan of the existing invariants with case-sensitive
string equality), and only then the copy of the receiver with the new
invariant appended. -/
def invariant {S C T : Type} (d : RunWhileDefinition S C T)
    (tag : String) (clause : S → Bool) :
    Except TagError (RunWhileDefinition S C T) :=
  if tag = sagaRaceTag then
    .error (.reserved tag)
  else if d.invariants.any (fun inv => inv.tag == tag) then
    .error (.duplicate tag)
  else
    .ok { d with invariants := d.invariants ++ [{ tag := tag, clause := clause }] }

/-- The onViolation builder step: a spread copy of the receiver with the
callback appended to onViolationCallbacks. -/
def onViolation {S C T : Type} (d : RunWhileDefinition S C T) (callback : C) :
    RunWhileDefinition S C T :=
  { d with onViolationCallbacks := d.onViolationCallbacks ++ [callback] }

/-- Observable effects of runInternal after the race resolves: the single
select(state => state) read, and each blocking call of a violation callback
with the snapshot and the violation list. -/
inductive SupEvent (S C : Type) where
  | readState (s : S)
  | invoke (callback : C) (state : S) (violations : List String)
deriving DecidableEq

/-- Whether an event is the state-snapshot read. -/
def SupEvent.isRead {S C : Type} : SupEvent S C → Bool
  | .readState _ => true
  | .invoke _ _ _ => false

/-- Whether an event is a violation-handler call. -/
def SupEvent.isInvoke {S C : Type} : SupEvent S C → Bool
  | .readState _ => false
  | .invoke _ _ _ => true

/-- The keys of the race map built at the top of runInternal: the sentinel
branch wrapping the saga, plus one branch per invariant keyed by its tag. -/
def raceKeys {S C T : Type} (d : RunWhileDefinition S C T) : List String :=
  sagaRaceTag :: d.invariants.map (fun inv => inv.tag)

/-- The violation set computed by runInternal: the invariants whose clause
is false on the single snapshot s, filtered in registration order, mapped to
their tags. -/
def violationsAt {S C T : Type} (d : RunWhileDefinition S C T) (s : S) :
    List String :=
  (d.invariants.filter (fun inv => !inv.clause s)).map (fun inv => inv.tag)

/-- The trace of runInternal after the race: winners is the key set of
raceResults, s is the state the select effect returns.  The branch condition
is the some-scan of the source (does any registered invariant have its tag
among the race result keys); on that branch the supervisor reads one
snapshot and then calls every registered callback in order, each with that
same snapshot and the same recomputed violation list. -/
def runInternal {S C T : Type} (d : RunWhileDefinition S C T)
    (winners : List String) (s : S) : List (SupEvent S C) :=
  if d.invariants.any (fun inv => winners.contains inv.tag) then
    SupEvent.readState s ::
      d.onViolationCallbacks.map
        (fun cb => SupEvent.invoke cb s (violationsAt d s))
  else
    []

/-- A builder call made by a client on an existing stage; used to express
that a failed invariant call leaves all later behaviour unchanged. -/
inductive BuilderCmd (S C : Type) where
  | addInvariant (tag : String) (clause : S → Bool)
  | addViolationHandler (callback : C)

/-- Apply one builder call to a definition; a throwing invariant call
leaves the caller with the stage it already had (the source throws before
any copy is made). -/
def applyCmd {S C T : Type} (d : RunWhileDefinition S C T) :
    BuilderCmd S C → RunWhileDefinition S C T
  | .addInvariant t c =>
      match invariant d t c with
      | .ok d2 => d2
      | .error _ => d
  | .addViolationHandler cb => onViolation d cb

/-- Apply a sequence of builder calls in order. -/
def applyCmds {S C T : Type} (d : RunWhileDefinition S C T)
    (cmds : List (BuilderCmd S C)) : RunWhileDefinition S C T :=
  cmds.foldl applyCmd d

/-- Modelled from the spec: running the attached task alone produces no
supervisor events, in particular no snapshot read and no handler
invocation. -/
def runTaskAloneSpec (S C : Type) : List (SupEvent S C) := []

/-- Concrete sample invariant used by witnesses. -/
def sampleInv1 : Invariant Nat := { tag := "a", clause := fun n => n == 0 }

/-- Concrete sample invariant used by witnesses. -/
def sampleInv2 : Invariant Nat := { tag := "b", clause := fun n => n == 1 }

/-- Concrete sample definition used by witnesses: two invariants and two
callbacks (callbacks are identified by numbers). -/
def sampleDef : RunWhileDefinition Nat Nat Unit :=
  { saga := (), invariants := [sampleInv1, sampleInv2],
    onViolationCallbacks := [7, 8] }

/-- Concrete sample definition whose single invariant holds at state 0,
used to witness the flapped-back case. -/
def sampleFlapDef : RunWhileDefinition Nat Nat Unit :=
  { saga := (), invariants := [{ tag := "p", clause := fun n => n == 0 }],
    onViolationCallbacks := [1, 2] }

/-- Helper: none of the handler-call events counts as a state read. -/
theorem countP_isRead_map_invoke {S C : Type} (cbs : List C) (s : S)
    (v : List String) :
    (cbs.map (fun cb => SupEvent.invoke cb s v)).countP
      (fun e => SupEvent.isRead e) = 0 := by
  apply List.countP_eq_zero.mpr
  intro e he
  obtain ⟨cb, _, rfl⟩ := List.mem_map.mp he
  simp [SupEvent.isRead]

/-- C1: when at least one invariant-tagged branch is among the race winners,
the trace of the supervisor is exactly one fresh state read followed by the
handler calls; the reported violation list is the registration-ordered list
of tags whose clause is false on that one snapshot (violationsAt); and the
trace does not depend on which invariant branches actually won. -/
theorem C1_single_snapshot_ordered_violations {S C T : Type}
    (d : RunWhileDefinition S C T) (winners : List String) (s : S)
    (hwin : d.invariants.any (fun inv => winners.contains inv.tag) = true) :
    runInternal d winners s =
      SupEvent.readState s ::
        d.onViolationCallbacks.map
          (fun cb => SupEvent.invoke cb s (violationsAt d s))
    ∧ (runInternal d winners s).countP (fun e => SupEvent.isRead e) = 1
    ∧ (∀ winners2 : List String,
        d.invariants.any (fun inv => winners2.contains inv.tag) = true →
          runInternal d winners2 s = runInternal d winners s) := by
  have htr : runInternal d winners s =
      SupEvent.readState s ::
        d.onViolationCallbacks.map
          (fun cb => SupEvent.invoke cb s (violationsAt d s)) := by
    unfold runInternal
    rw [if_pos hwin]
  refine ⟨htr, ?_, ?_⟩
  · rw [htr, List.countP_cons]
    simp [countP_isRead_map_invoke, SupEvent.isRead]
  · intro winners2 h2
    rw [htr]
    unfold runInternal
    rw [if_pos h2]

/-- Witness for C1 on sampleDef with the branch of invariant "b" winning at
state 5, where both clauses are false. -/
theorem C1_witness :
    sampleDef.invariants.any
        (fun inv => (["b"] : List String).contains inv.tag) = true
    ∧ (runInternal sampleDef ["b"] 5 =
        SupEvent.readState 5 ::
          sampleDef.onViolationCallbacks.map
            (fun cb => SupEvent.invoke cb 5 (violationsAt sampleDef 5))
      ∧ (runInternal sampleDef ["b"] 5).countP
          (fun e => SupEvent.isRead e) = 1
      ∧ (∀ winners2 : List String,
          sampleDef.invariants.any
              (fun inv => winners2.contains inv.tag) = true →
            runInternal sampleDef winners2 5 = runInternal sampleDef ["b"] 5)) :=
  ⟨by decide,
   C1_single_snapshot_ordered_violations sampleDef ["b"] 5 (by decide)⟩

/-- C2: when only the sentinel branch completed the race, the supervisor
terminates with an empty trace: no snapshot read and no handler invocation,
whatever invariants and handlers are registered.  The hypothesis that no
invariant carries the reserved tag holds for every definition the builder
can produce, since the invariant operation rejects the reserved tag. -/
theorem C2_sentinel_only_no_violation_handling {S C T : Type}
    (d : RunWhileDefinition S C T) (s : S)
    (hwf : ∀ inv ∈ d.invariants, inv.tag ≠ sagaRaceTag) :
    runInternal d [sagaRaceTag] s = [] := by
  have hcond : d.invariants.any
      (fun inv => ([sagaRaceTag] : List String).contains inv.tag) = false := by
    rw [List.any_eq_false]
    intro inv hinv
    simp [hwf inv hinv]
  unfold runInternal
  rw [if_neg (by rw [hcond]; exact Bool.false_ne_true)]

/-- Witness for C2 on sampleDef at state 0. -/
theorem C2_witness :
    (∀ inv ∈ sampleDef.invariants, inv.tag ≠ sagaRaceTag)
    ∧ runInternal sampleDef [sagaRaceTag] 0 = [] :=
  ⟨by decide, C2_sentinel_only_no_violation_handling sampleDef 0 (by decide)⟩

/-- Helper: the two error messages of the source never coincide, whatever
the offending tags: the reserved-tag message ends in a period while the
duplicate-tag message ends in the letter a. -/
theorem reserved_message_ne_duplicate_message (t1 t2 : String) :
    TagError.message (.reserved t1) ≠ TagError.message (.duplicate t2) := by
  intro h
  have hd : t1.data ++ (" is reserved. Please choose another invariant tag.").data
      = t2.data ++ (" is a").data := by
    have h2 := congrArg String.data h
    simpa [TagError.message, String.data_append] using h2
  have hB : (" is a").data <:+
      t1.data ++ (" is reserved. Please choose another invariant tag.").data := by
    rw [hd]; exact List.suffix_append _ _
  have hA : (" is reserved. Please choose another invariant tag.").data <:+
      t1.data ++ (" is reserved. Please choose another invariant tag.").data :=
    List.suffix_append _ _
  have hBA : (" is a").data <:+
      (" is reserved. Please choose another invariant tag.").data :=
    List.suffix_of_suffix_length_le hB hA (by decide)
  exact absurd hBA (by decide)

/-- C3: the invariant operation errors exactly when the tag is the reserved
sentinel (then with the reserved-tag error) or case-sensitively equals an
already registered tag (then with the duplicate-tag error); the two error
kinds are distinguishable (their messages never coincide); a tag passing
both checks always succeeds. -/
theorem C3_invariant_error_cases {S C T : Type}
    (d : RunWhileDefinition S C T) (t : String) (c : S → Bool) :
    ((∃ e, invariant d t c = .error e) ↔
       (t = sagaRaceTag ∨ d.invariants.any (fun inv => inv.tag == t) = true))
    ∧ (invariant d t c = .error (.reserved t) ↔ t = sagaRaceTag)
    ∧ (invariant d t c = .error (.duplicate t) ↔
         (t ≠ sagaRaceTag ∧ d.invariants.any (fun inv => inv.tag == t) = true))
    ∧ ((t ≠ sagaRaceTag ∧ d.invariants.any (fun inv => inv.tag == t) = false) →
         ∃ d2, invariant d t c = .ok d2)
    ∧ (∀ t1 t2 : String,
         TagError.message (.reserved t1) ≠ TagError.message (.duplicate t2)) := by
  refine ⟨?_, ?_, ?_, ?_, reserved_message_ne_duplicate_message⟩
  · by_cases h1 : t = sagaRaceTag
    · simp [invariant, h1]
    · by_cases h2 : d.invariants.any (fun inv => inv.tag == t) = true
      · simp [invariant, h1, h2]
      · simp [invariant, h1, h2]
  · by_cases h1 : t = sagaRaceTag
    · simp [invariant, h1]
    · by_cases h2 : d.invariants.any (fun inv => inv.tag == t) = true
      · simp [invariant, h1, h2]
      · simp [invariant, h1, h2]
  · by_cases h1 : t = sagaRaceTag
    · simp [invariant, h1]
    · by_cases h2 : d.invariants.any (fun inv => inv.tag == t) = true
      · simp [invariant, h1, h2]
      · simp [invariant, h1, h2]
  · rintro ⟨h1, h2⟩
    refine ⟨{ d with invariants := d.invariants ++ [{ tag := t, clause := c }] }, ?_⟩
    unfold invariant
    rw [if_neg h1, if_neg (by rw [h2]; exact Bool.false_ne_true)]

/-- Witness for C3: the reserved tag fails with the reserved-tag error, a
duplicated tag fails with the duplicate-tag error, a fresh tag succeeds. -/
theorem C3_witness :
    invariant sampleDef "@@Saga" (fun n => n == 0) = .error (.reserved "@@Saga")
    ∧ invariant sampleDef "a" (fun n => n == 0) = .error (.duplicate "a")
    ∧ (∃ d2, invariant sampleDef "c" (fun n => n == 2) = .ok d2) :=
  ⟨(C3_invariant_error_cases sampleDef "@@Saga" (fun n => n == 0)).2.1.mpr rfl,
   (C3_invariant_error_cases sampleDef "a" (fun n => n == 0)).2.2.1.mpr
     ⟨by decide, by decide⟩,
   (C3_invariant_error_cases sampleDef "c" (fun n => n == 2)).2.2.2.1
     ⟨by decide, by decide⟩⟩

/-- C4: if every clause is true again on the snapshot, the violation branch
is still taken once an invariant branch won the race: the violation list is
empty and every handler is still invoked, receiving the empty list. -/
theorem C4_flapped_back_empty_violations {S C T : Type}
    (d : RunWhileDefinition S C T) (winners : List String) (s : S)
    (hwin : d.invariants.any (fun inv => winners.contains inv.tag) = true)
    (hall : ∀ inv ∈ d.invariants, inv.clause s = true) :
    violationsAt d s = []
    ∧ runInternal d winners s =
        SupEvent.readState s ::
          d.onViolationCallbacks.map (fun cb => SupEvent.invoke cb s []) := by
  have hv : violationsAt d s = [] := by
    unfold violationsAt
    rw [List.filter_eq_nil_iff.mpr]
    · rfl
    · intro inv hinv
      simp [hall inv hinv]
  refine ⟨hv, ?_⟩
  unfold runInternal
  rw [if_pos hwin, hv]

/-- Witness for C4 on sampleFlapDef: the watcher branch of invariant p won,
but at state 0 its clause is true again; both handlers still run with []. -/
theorem C4_witness :
    sampleFlapDef.invariants.any
        (fun inv => (["p"] : List String).contains inv.tag) = true
    ∧ (∀ inv ∈ sampleFlapDef.invariants, inv.clause 0 = true)
    ∧ (violationsAt sampleFlapDef 0 = []
      ∧ runInternal sampleFlapDef ["p"] 0 =
          SupEvent.readState 0 ::
            sampleFlapDef.onViolationCallbacks.map
              (fun cb => SupEvent.invoke cb 0 [])) :=
  ⟨by decide, by decide,
   C4_flapped_back_empty_violations sampleFlapDef ["p"] 0 (by decide) (by decide)⟩

/-- C5: on the violation path the handler-call part of the trace is exactly
one blocking call per registered handler, in registration order, each
receiving the same snapshot and the same violation list.  Because each call
is blocking, the list order is both start and completion order. -/
theorem C5_handlers_in_order_same_args {S C T : Type}
    (d : RunWhileDefinition S C T) (winners : List String) (s : S)
    (hwin : d.invariants.any (fun inv => winners.contains inv.tag) = true) :
    (runInternal d winners s).filter (fun e => SupEvent.isInvoke e) =
      d.onViolationCallbacks.map
        (fun cb => SupEvent.invoke cb s (violationsAt d s)) := by
  unfold runInternal
  rw [if_pos hwin, List.filter_cons]
  have h0 : (SupEvent.readState s : SupEvent S C).isInvoke = false := rfl
  rw [h0, if_neg Bool.false_ne_true, List.filter_map]
  have h2 : ((fun e => SupEvent.isInvoke e) ∘
      fun cb : C => SupEvent.invoke cb s (violationsAt d s)) =
        fun _ : C => true := by
    funext cb
    rfl
  rw [h2, List.filter_true]

/-- Witness for C5 on sampleDef at state 5. -/
theorem C5_witness :
    sampleDef.invariants.any
        (fun inv => (["b"] : List String).contains inv.tag) = true
    ∧ (runInternal sampleDef ["b"] 5).filter (fun e => SupEvent.isInvoke e) =
        sampleDef.onViolationCallbacks.map
          (fun cb => SupEvent.invoke cb 5 (violationsAt sampleDef 5)) :=
  ⟨by decide, C5_handlers_in_order_same_args sampleDef ["b"] 5 (by decide)⟩

/-- C6: with zero invariants the race set degenerates to the sentinel branch
alone and the supervisor trace is the task-alone behaviour on every possible
race outcome and state: no violation path, no snapshot read, no handler
call. -/
theorem C6_zero_invariants_task_alone {S C T : Type}
    (d : RunWhileDefinition S C T) (h : d.invariants = []) :
    raceKeys d = [sagaRaceTag]
    ∧ ∀ (winners : List String) (s : S),
        runInternal d winners s = runTaskAloneSpec S C := by
  constructor
  · unfold raceKeys
    rw [h]
    rfl
  · intro winners s
    unfold runInternal
    rw [h]
    rfl

/-- Witness for C6 on the empty definition produced by runWhile. -/
theorem C6_witness :
    (runWhile (S := Nat) (C := Nat) ()).invariants = []
    ∧ (raceKeys (runWhile (S := Nat) (C := Nat) ()) = [sagaRaceTag]
      ∧ ∀ (winners : List String) (s : Nat),
          runInternal (runWhile (S := Nat) (C := Nat) ()) winners s =
            runTaskAloneSpec Nat Nat) :=
  ⟨rfl, C6_zero_invariants_task_alone (runWhile ()) rfl⟩

/-- C7 counterexample: the tags used, "@@Saga" and "x", are distinct, yet
the very first add on a fresh definition already fails (with the
reserved-tag error), so adding two distinct tags does not always succeed. -/
theorem C7_counterexample :
    ("@@Saga" : String) ≠ "x"
    ∧ invariant (runWhile (S := Nat) (C := Nat) ()) "@@Saga" (fun n => n == 0) =
        .error (.reserved "@@Saga") := by
  constructor
  · decide
  · rfl

/-- C7 amended: for distinct tags t1 and t2, neither equal to the reserved
sentinel and neither already registered in the definition, adding t1 and
then t2 never fails: both calls succeed. -/
theorem C7_amended_distinct_fresh_tags_succeed {S C T : Type}
    (d : RunWhileDefinition S C T) (t1 t2 : String) (c1 c2 : S → Bool)
    (h12 : t1 ≠ t2) (h1 : t1 ≠ sagaRaceTag) (h2 : t2 ≠ sagaRaceTag)
    (hf1 : d.invariants.any (fun inv => inv.tag == t1) = false)
    (hf2 : d.invariants.any (fun inv => inv.tag == t2) = false) :
    ∃ d1 d2, invariant d t1 c1 = .ok d1 ∧ invariant d1 t2 c2 = .ok d2 := by
  have hok1 : invariant d t1 c1 =
      .ok { d with invariants := d.invariants ++ [{ tag := t1, clause := c1 }] } := by
    unfold invariant
    rw [if_neg h1, if_neg (by rw [hf1]; exact Bool.false_ne_true)]
  have hany : ((d.invariants ++ [{ tag := t1, clause := c1 }] :
      List (Invariant S)).any (fun inv => inv.tag == t2)) = false := by
    rw [List.any_append, hf2]
    simp [h12]
  have hok2 : invariant
      { d with invariants := d.invariants ++ [{ tag := t1, clause := c1 }] } t2 c2 =
      .ok { d with invariants :=
        (d.invariants ++ [{ tag := t1, clause := c1 }]) ++ [{ tag := t2, clause := c2 }] } := by
    unfold invariant
    rw [if_neg h2, if_neg (by rw [hany]; exact Bool.false_ne_true)]
  exact ⟨_, _, hok1, hok2⟩

/-- Witness for C7 amended: tags "a" and "b" on a fresh definition. -/
theorem C7_amended_witness :
    ∃ d1 d2, invariant (runWhile (S := Nat) (C := Nat) ()) "a" (fun n => n == 0) = .ok d1
      ∧ invariant d1 "b" (fun n => n == 1) = .ok d2 :=
  C7_amended_distinct_fresh_tags_succeed (runWhile ()) "a" "b"
    (fun n => n == 0) (fun n => n == 1)
    (by decide) (by decide) (by decide) (by decide) (by decide)

/-- C8: every builder operation is copy-then-extend: a successful invariant
call yields a stage whose configuration is the receiver with exactly the
new invariant appended, saga and handlers untouched; onViolation appends
exactly the new handler and touches nothing else; the saga step replaces
only the saga.  Stages are values, so the receiver stage itself is
unchanged by construction. -/
theorem C8_builder_copy_then_extend {S C T : Type}
    (d d2 : RunWhileDefinition S C T) (t : String) (c : S → Bool)
    (cb : C) (tk : T)
    (hok : invariant d t c = .ok d2) :
    (d2.saga = d.saga ∧ d2.onViolationCallbacks = d.onViolationCallbacks
      ∧ d2.invariants = d.invariants ++ [{ tag := t, clause := c }])
    ∧ ((onViolation d cb).saga = d.saga
      ∧ (onViolation d cb).invariants = d.invariants
      ∧ (onViolation d cb).onViolationCallbacks = d.onViolationCallbacks ++ [cb])
    ∧ ((saga d tk).invariants = d.invariants
      ∧ (saga d tk).onViolationCallbacks = d.onViolationCallbacks
      ∧ (saga d tk).saga = tk) := by
  refine ⟨?_, ⟨rfl, rfl, rfl⟩, ⟨rfl, rfl, rfl⟩⟩
  unfold invariant at hok
  split at hok
  · exact absurd hok (by simp)
  · split at hok
    · exact absurd hok (by simp)
    · have hd : { d with invariants :=
          d.invariants ++ [{ tag := t, clause := c }] } = d2 := by
        injection hok
      rw [← hd]
      exact ⟨rfl, rfl, rfl⟩

/-- Witness for C8: a fresh tag added to sampleDef. -/
theorem C8_witness :
    invariant sampleDef "c" (fun n => n == 2) =
      .ok { sampleDef with invariants :=
        sampleDef.invariants ++ [{ tag := "c", clause := fun n => n == 2 }] }
    ∧ (let d2 : RunWhileDefinition Nat Nat Unit := { sampleDef with invariants :=
        sampleDef.invariants ++ [{ tag := "c", clause := fun n => n == 2 }] }
      (d2.saga = sampleDef.saga
        ∧ d2.onViolationCallbacks = sampleDef.onViolationCallbacks
        ∧ d2.invariants = sampleDef.invariants ++
            [{ tag := "c", clause := fun n => n == 2 }])
      ∧ ((onViolation sampleDef 9).saga = sampleDef.saga
        ∧ (onViolation sampleDef 9).invariants = sampleDef.invariants
        ∧ (onViolation sampleDef 9).onViolationCallbacks =
            sampleDef.onViolationCallbacks ++ [9])
      ∧ ((saga sampleDef ()).invariants = sampleDef.invariants
        ∧ (saga sampleDef ()).onViolationCallbacks = sampleDef.onViolationCallbacks
        ∧ (saga sampleDef ()).saga = ())) :=
  ⟨rfl, C8_builder_copy_then_extend sampleDef _ "c" (fun n => n == 2) 9 () rfl⟩

/-- C9: construction is deterministic and interference-free: two successful
invariant calls on the same stage with the same arguments produce equal
stages, with the same race keys, the same supervisor trace on every race
outcome and state, and the same result under any further sequence of
builder calls; stages being values, building on one cannot change the
other. -/
theorem C9_builder_deterministic {S C T : Type}
    (d d1 d2 : RunWhileDefinition S C T) (t : String) (c : S → Bool)
    (h1 : invariant d t c = .ok d1) (h2 : invariant d t c = .ok d2) :
    d1 = d2 ∧ raceKeys d1 = raceKeys d2
    ∧ (∀ (winners : List String) (s : S),
        runInternal d1 winners s = runInternal d2 winners s)
    ∧ (∀ cmds : List (BuilderCmd S C), applyCmds d1 cmds = applyCmds d2 cmds) := by
  have he : d1 = d2 := by
    rw [h1] at h2
    injection h2
  subst he
  exact ⟨rfl, rfl, fun _ _ => rfl, fun _ => rfl⟩

/-- Witness for C9: the same fresh-tag call made twice on sampleDef. -/
theorem C9_witness :
    invariant sampleDef "c" (fun n => n == 2) =
      .ok { sampleDef with invariants :=
        sampleDef.invariants ++ [{ tag := "c", clause := fun n => n == 2 }] }
    ∧ (let d1 : RunWhileDefinition Nat Nat Unit := { sampleDef with invariants :=
        sampleDef.invariants ++ [{ tag := "c", clause := fun n => n == 2 }] }
      d1 = d1 ∧ raceKeys d1 = raceKeys d1
      ∧ (∀ (winners : List String) (s : Nat),
          runInternal d1 winners s = runInternal d1 winners s)
      ∧ (∀ cmds : List (BuilderCmd Nat Nat), applyCmds d1 cmds = applyCmds d1 cmds)) :=
  ⟨rfl, C9_builder_deterministic sampleDef _ _ "c" (fun n => n == 2) rfl rfl⟩

/-- C10: a failed invariant call is atomic: the receiver stage is returned
to the caller unchanged (the throw happens before any copy is made), and
any later sequence of builder calls on that stage yields exactly what it
would have yielded had the failing call never been made. -/
theorem C10_failed_invariant_atomic {S C T : Type}
    (d : RunWhileDefinition S C T) (t : String) (c : S → Bool) (e : TagError)
    (herr : invariant d t c = .error e) :
    applyCmd d (.addInvariant t c) = d
    ∧ ∀ cmds : List (BuilderCmd S C),
        applyCmds d (.addInvariant t c :: cmds) = applyCmds d cmds := by
  have h : applyCmd d (.addInvariant t c) = d := by
    show (match invariant d t c with
      | Except.ok d2 => d2
      | Except.error _ => d) = d
    rw [herr]
  refine ⟨h, fun cmds => ?_⟩
  unfold applyCmds
  rw [List.foldl_cons, h]

/-- Witness for C10: the duplicate tag "a" fails on sampleDef and the
failing call is a no-op for any later builder call. -/
theorem C10_witness :
    invariant sampleDef "a" (fun n => n == 3) = .error (.duplicate "a")
    ∧ (applyCmd sampleDef (.addInvariant "a" (fun n => n == 3)) = sampleDef
      ∧ ∀ cmds : List (BuilderCmd Nat Nat),
          applyCmds sampleDef (.addInvariant "a" (fun n => n == 3) :: cmds) =
            applyCmds sampleDef cmds) :=
  ⟨rfl, C10_failed_invariant_atomic sampleDef "a" (fun n => n == 3)
    (.duplicate "a") rfl⟩

end RunWhileSpec
